import Mathlib

/-!
Verification of the dev.to MCP server's aggregation, fallback-resolution and
response-shaping logic (src/server.py), via a shallow embedding in Lean.

Modelling conventions:
* A raw item record (a JSON dict in the source) becomes the `Article`
  structure.  A field of type `Option _` is `none` when the key is absent
  from the dict; the publication flag, whose absent/null/value states the
  source distinguishes, gets its own three-valued type `PubField`, and the
  tag collection (which the remote may furnish as a string, a list, null,
  or not at all) gets `TagField`.
* Remote calls that may fail become a `FetchResult` value; page-fetch
  functions are passed in explicitly (`Int → FetchResult (List Article)`),
  mirroring the injectable-capability reading of the loops.
* Python `while` loops over page numbers become fuel-indexed recursion,
  with fuel `max_pages.toNat`: the loop condition
  `current <= page + max_pages - 1` holds iff the remaining fuel
  `(page + max_pages - current).toNat` is positive, and both the page
  counter and the fuel advance by one per iteration.
* Loops additionally return the ordered list of page numbers (or calls)
  they attempted, so that fetch-count claims are statable.
* String containment (`in`), lowercasing, splitting and comparison mirror
  the CPython operations on ASCII data.
-/

/-- The state of the `"published"` key in a raw record: absent, present
with value `null`/`None`, or present with a boolean value. -/
inductive PubField where
  | missing : PubField
  | null : PubField
  | val (b : Bool) : PubField
deriving DecidableEq

/-- The state of a tag-collection key (`"tag_list"` or `"tags"`): absent,
null, a comma-separated string, or a list of strings. -/
inductive TagField where
  | missing : TagField
  | null : TagField
  | strVal (s : String) : TagField
  | listVal (l : List String) : TagField
deriving DecidableEq

/-- A raw item record as returned by the dev.to API.  `user` is the
`username` string inside the `"user"` sub-dict when present. -/
structure Article where
  id : Option Int
  title : Option String
  url : Option String
  published_at : Option String
  description : Option String
  tag_list : TagField
  tags : TagField
  user : Option String
  published : PubField
  body_markdown : Option String
  body_html : Option String
deriving DecidableEq

/-- A record with every key absent; concrete records override fields. -/
def baseArticle : Article :=
  { id := none, title := none, url := none, published_at := none
  , description := none, tag_list := .missing, tags := .missing
  , user := none, published := .missing
  , body_markdown := none, body_html := none }

/-- Outcome of one remote call: a JSON value or a raised error. -/
inductive FetchResult (α : Type) where
  | ok (val : α) : FetchResult α
  | err : FetchResult α
deriving DecidableEq

/-- CPython `str.split(",")` over the character list: every comma starts
a new piece, and the empty string yields one empty piece. -/
def splitCommaChars : List Char → List (List Char)
  | [] => [[]]
  | c :: rest =>
    match splitCommaChars rest with
    | [] => if c = ',' then [[], []] else [[c]]
    | h :: t => if c = ',' then [] :: h :: t else (c :: h) :: t

/-- CPython `s.split(",")`. -/
def pySplitComma (s : String) : List String :=
  (splitCommaChars s.toList).map String.mk

/-- The whitespace characters CPython `str.strip()` removes (ASCII). -/
def isPyWhitespace (c : Char) : Bool :=
  c = ' ' || c = '\t' || c = '\n' || c = '\r' || c = '\x0b' || c = '\x0c'

/-- CPython `s.strip()`: leading and trailing whitespace removed. -/
def pyStrip (s : String) : String :=
  String.mk (((s.toList.dropWhile isPyWhitespace).reverse.dropWhile
    isPyWhitespace).reverse)

/-- CPython `s.lower()` on ASCII data. -/
def pyLower (s : String) : String :=
  String.mk (s.toList.map Char.toLower)

/-- Model of `ensure_list` (server.py:283): a list passes through, a string is
split on commas with each piece stripped and empties dropped, anything
else becomes the empty list. -/
def ensure_list : TagField → List String
  | .listVal l => l
  | .strVal s => ((pySplitComma s).map pyStrip).filter (fun t => t ≠ "")
  | _ => []

/-- The tag value the shapers read:
`article.get("tag_list", article.get("tags", []))`. -/
def tag_source (a : Article) : TagField :=
  match a.tag_list with
  | .missing =>
    match a.tags with
    | .missing => .listVal []
    | v => v
  | v => v

/-- Model of `get_published` inside `simplify_articles` (server.py:379): absent key
means `False`, a present `None` means `False`, otherwise the boolean. -/
def get_published : PubField → Bool
  | .val b => b
  | _ => false

/-- Python truthiness of `article.get("published")`. -/
def pubTruthy : PubField → Bool
  | .val b => b
  | _ => false

/-- The list-view projection produced by `simplify_articles`. -/
structure SimpleArticle where
  id : Option Int
  title : Option String
  url : Option String
  published_at : Option String
  description : Option String
  tags : List String
  author : Option String
  published : Bool
deriving DecidableEq

/-- One element of `simplify_articles` (server.py:377): the list-view
shaper applied to a single raw record. -/
def simplify_article (a : Article) : SimpleArticle :=
  { id := a.id, title := a.title, url := a.url
  , published_at := a.published_at, description := a.description
  , tags := ensure_list (tag_source a)
  , author := a.user
  , published := get_published a.published }

/-- Model of `simplify_articles` (server.py:377). -/
def simplify_articles (l : List Article) : List SimpleArticle :=
  l.map simplify_article

/-- The detail-view projection produced by `format_article_detail`. -/
structure ArticleDetail where
  id : Option Int
  title : Option String
  url : Option String
  published_at : Option String
  description : Option String
  tags : List String
  author : String
  published : Bool
  body_markdown : Option String
  body_html : Option String
  content : String
deriving DecidableEq

/-- Model of `format_article_detail` (server.py:290) on a raw record. -/
def format_article_detail (a : Article) : ArticleDetail :=
  { id := a.id
  , title := some (a.title.getD "Untitled")
  , url := some (a.url.getD "")
  , published_at := a.published_at
  , description := a.description
  , tags := ensure_list (tag_source a)
  , author := a.user.getD "unknown"
  , published := get_published a.published
  , body_markdown := a.body_markdown
  , body_html := a.body_html
  , content := if (a.body_markdown.getD "") ≠ "" then a.body_markdown.getD ""
               else a.body_html.getD "" }

/-- Model of `format_article_detail` applied to a dict produced by
`simplify_articles` (as `get_article_by_title` does): the keys `id`,
`title`, `url`, `published_at`, `description`, `tags`, `author` and
`published` are present (possibly with `None` values), while `tag_list`,
`user` and the body keys are absent, so `.get` falls back to its defaults
for the latter and the `tags` key feeds `ensure_list` directly. -/
def detailOfSimple (s : SimpleArticle) : ArticleDetail :=
  { id := s.id
  , title := s.title
  , url := s.url
  , published_at := s.published_at
  , description := s.description
  , tags := s.tags
  , author := "unknown"
  , published := s.published
  , body_markdown := none
  , body_html := none
  , content := "" }

/-- Claim C7: the list-view shaper treats an absent or null publication
flag as `published = false` (not as an error) and copies the boolean
value of a present flag. -/
theorem published_flag_default (a : Article) :
    ((a.published = .missing ∨ a.published = .null) →
      (simplify_article a).published = false)
    ∧ (∀ b, a.published = .val b → (simplify_article a).published = b) := by
  constructor
  · intro h
    rcases h with h | h <;> simp [simplify_article, get_published, h]
  · intro b h
    simp [simplify_article, get_published, h]

/-- Witness for C7: a record with an absent publication flag is shaped to
`published = false`. -/
theorem published_flag_default_witness :
    (simplify_article baseArticle).published = false :=
  (published_flag_default baseArticle).1 (Or.inl rfl)

/-- Claim C8: the shapers normalize a tag collection furnished either as
a sequence of strings or as a comma-separated string to the same ordered
sequence; in particular `"a, b,c"` and `["a","b","c"]` both become
`["a","b","c"]`, at the `ensure_list` level and through the detail and
list shapers. -/
theorem tag_normalization :
    ensure_list (.strVal "a, b,c") = ["a", "b", "c"]
    ∧ (∀ l, ensure_list (.listVal l) = l)
    ∧ (format_article_detail
        { baseArticle with tag_list := .strVal "a, b,c" }).tags
        = ["a", "b", "c"]
    ∧ (format_article_detail
        { baseArticle with tag_list := .listVal ["a", "b", "c"] }).tags
        = ["a", "b", "c"]
    ∧ (simplify_article
        { baseArticle with tag_list := .strVal "a, b,c" }).tags
        = ["a", "b", "c"] := by
  refine ⟨by decide, fun l => rfl, by decide, by decide, by decide⟩

/-- The records a page fetch contributed: its payload on success, nothing
on failure. -/
def fetchContents (fetch : Int → FetchResult (List Article)) (q : Int) :
    List Article :=
  match fetch q with
  | .ok l => l
  | .err => []

/-- The pagination aggregation loop of `browse_latest_articles`
(server.py:463) and its clones: starting at `current` with `fuel`
remaining page slots (`fuel = (page + max_pages - current).toNat`), fetch
the page; on failure log-and-skip to the next page, on an empty page stop,
otherwise append and continue.  Returns the accumulated records together
with the ordered list of page numbers attempted. -/
def browseLoop (fetch : Int → FetchResult (List Article)) :
    Nat → Int → List Article × List Int
  | 0, _ => ([], [])
  | fuel + 1, current =>
    match fetch current with
    | .err =>
      let r := browseLoop fetch fuel (current + 1)
      (r.1, current :: r.2)
    | .ok arts =>
      if arts.isEmpty then ([], [current])
      else
        let r := browseLoop fetch fuel (current + 1)
        (arts ++ r.1, current :: r.2)

/-- Model of `browse_latest_articles` (server.py:437): run the aggregation loop
from `page` with a `max_pages` budget, then shape the result with
`simplify_articles`.  The second component is the fetch trace. -/
def browse_latest_articles (fetch : Int → FetchResult (List Article))
    (page max_pages : Int) : List SimpleArticle × List Int :=
  let r := browseLoop fetch max_pages.toNat page
  (simplify_articles r.1, r.2)

lemma range_map_shift (p : Int) (N : Nat) :
    (List.range (N + 1)).map (fun (k : Nat) => p + (k : Int))
      = p :: (List.range N).map (fun (k : Nat) => p + 1 + (k : Int)) := by
  rw [List.range_succ_eq_map]
  simp only [List.map_cons, List.map_map, Nat.cast_zero, add_zero]
  refine congrArg _ (List.map_congr_left fun a _ => ?_)
  simp only [Function.comp_apply, Nat.succ_eq_add_one]
  push_cast
  ring

lemma range_succ_flatMap {α : Type} (f : Nat → List α) (N : Nat) :
    (List.range (N + 1)).flatMap f
      = f 0 ++ (List.range N).flatMap fun i => f (i + 1) := by
  rw [List.range_succ_eq_map]
  simp [List.flatMap_map, Function.comp, Nat.succ_eq_add_one]

lemma browseLoop_full_pages (fetch : Int → FetchResult (List Article)) :
    ∀ (N : Nat) (pages : Nat → List Article) (fuel : Nat) (p : Int),
    (∀ i, i < N → fetch (p + i) = .ok (pages i)) →
    (∀ i, i < N → pages i ≠ []) →
    fetch (p + N) = .ok [] →
    N + 1 ≤ fuel →
    browseLoop fetch fuel p
      = ((List.range N).flatMap pages,
         (List.range (N + 1)).map (fun (k : Nat) => p + (k : Int))) := by
  intro N
  induction N with
  | zero =>
    intro pages fuel p _ _ hempty hfuel
    obtain ⟨f, rfl⟩ : ∃ f, fuel = f + 1 := ⟨fuel - 1, by omega⟩
    have hp : fetch p = .ok [] := by simpa using hempty
    simp [browseLoop, hp, List.range_succ]
  | succ N ih =>
    intro pages fuel p hfull hne hempty hfuel
    obtain ⟨f, rfl⟩ : ∃ f, fuel = f + 1 := ⟨fuel - 1, by omega⟩
    have h0 : fetch p = .ok (pages 0) := by
      have := hfull 0 (Nat.succ_pos N)
      simpa using this
    have hne0 : (pages 0).isEmpty = false := by
      have := hne 0 (Nat.succ_pos N)
      simpa [List.isEmpty_iff] using this
    have hrec := ih (fun i => pages (i + 1)) f (p + 1)
      (fun i hi => by
        have := hfull (i + 1) (by omega)
        have harith : p + ((i + 1 : Nat) : Int) = p + 1 + (i : Int) := by
          push_cast; ring
        rwa [harith] at this)
      (fun i hi => hne (i + 1) (by omega))
      (by
        have harith : p + ((N + 1 : Nat) : Int) = p + 1 + (N : Int) := by
          push_cast; ring
        rwa [harith] at hempty)
      (by omega)
    have htr : (List.range (N + 1 + 1)).map (fun (k : Nat) => p + (k : Int))
        = p :: (List.range (N + 1)).map (fun (k : Nat) => p + 1 + (k : Int)) :=
      range_map_shift p (N + 1)
    have hb : (List.range (N + 1)).flatMap pages
        = pages 0 ++ (List.range N).flatMap fun i => pages (i + 1) :=
      range_succ_flatMap pages N
    simp only [browseLoop, h0, hne0, Bool.false_eq_true, if_false, hrec,
      htr, hb]

/-- Claim C1: with starting page `p ≥ 1`, page size `s ≥ 1` and
`max_pages = m ≥ N + 1`, if the page-fetch function yields `N` consecutive
full pages of `s` records followed by an empty page, the aggregation loop
returns exactly the `N·s` fetched records concatenated in page order and
attempts exactly the `N + 1` pages `p, …, p + N`; and with a max-pages
budget `m' ≤ 0` it performs zero fetches and returns an empty sequence. -/
theorem pagination_counts
    (fetch : Int → FetchResult (List Article)) (pages : Nat → List Article)
    (p m m' : Int) (s N : Nat)
    (hp : 1 ≤ p) (hs : 1 ≤ s)
    (hfull : ∀ i, i < N → fetch (p + i) = .ok (pages i))
    (hlen : ∀ i, i < N → (pages i).length = s)
    (hempty : fetch (p + N) = .ok [])
    (hm : (N : Int) + 1 ≤ m)
    (hm' : m' ≤ 0) :
    browseLoop fetch m.toNat p
      = ((List.range N).flatMap pages,
         (List.range (N + 1)).map (fun (k : Nat) => p + (k : Int)))
    ∧ ((List.range N).flatMap pages).length = N * s
    ∧ (browseLoop fetch m.toNat p).2.length = N + 1
    ∧ browse_latest_articles fetch p m
      = (simplify_articles ((List.range N).flatMap pages),
         (List.range (N + 1)).map (fun (k : Nat) => p + (k : Int)))
    ∧ browse_latest_articles fetch p m' = ([], []) := by
  have hne : ∀ i, i < N → pages i ≠ [] := by
    intro i hi h
    have := hlen i hi
    rw [h] at this
    simp at this
    omega
  have hmain := browseLoop_full_pages fetch N pages m.toNat p hfull hne hempty
    (by omega)
  have hcount : ((List.range N).flatMap pages).length = N * s := by
    rw [List.length_flatMap]
    have hmap : (List.range N).map (List.length ∘ pages)
        = List.replicate N s := by
      refine List.eq_replicate_iff.2 ⟨by simp, ?_⟩
      intro b hb
      obtain ⟨i, hi, rfl⟩ := List.mem_map.1 hb
      exact hlen i (List.mem_range.1 hi)
    rw [hmap, List.sum_replicate, smul_eq_mul]
  refine ⟨hmain, hcount, ?_, ?_, ?_⟩
  · rw [hmain]
    simp
  · simp only [browse_latest_articles, hmain]
  · have hz : m'.toNat = 0 := by omega
    simp [browse_latest_articles, hz, browseLoop, simplify_articles]

/-- A concrete raw record with only an id, for witnesses. -/
def artW (n : Int) : Article := { baseArticle with id := some n }

/-- Witness page contents for C1: page `i` holds the single record
`artW i`. -/
def pagesW1 : Nat → List Article := fun i => [artW i]

/-- Witness fetch function for C1: two full pages then an empty page. -/
def fetchW1 : Int → FetchResult (List Article) := fun c =>
  if c = 1 then .ok [artW 0] else if c = 2 then .ok [artW 1] else .ok []

/-- Witness for C1 at `p = 1`, `s = 1`, `N = 2`, `m = 3`, `m' = 0`. -/
theorem pagination_counts_witness :
    browseLoop fetchW1 (3 : Int).toNat 1
      = ((List.range 2).flatMap pagesW1,
         (List.range 3).map (fun (k : Nat) => 1 + (k : Int)))
    ∧ ((List.range 2).flatMap pagesW1).length = 2 * 1
    ∧ (browseLoop fetchW1 (3 : Int).toNat 1).2.length = 3
    ∧ browse_latest_articles fetchW1 1 3
      = (simplify_articles ((List.range 2).flatMap pagesW1),
         (List.range 3).map (fun (k : Nat) => 1 + (k : Int)))
    ∧ browse_latest_articles fetchW1 1 0 = ([], []) :=
  pagination_counts fetchW1 pagesW1 1 3 0 1 2 (by decide) (by decide)
    (by decide) (by decide) (by decide) (by decide) (by decide)

lemma browseLoop_trace (fetch : Int → FetchResult (List Article)) :
    ∀ (fuel : Nat) (c : Int),
    ∃ L : Nat, L ≤ fuel
      ∧ (browseLoop fetch fuel c).2
          = (List.range L).map (fun (k : Nat) => c + (k : Int))
      ∧ (L = fuel ∨ (0 < L ∧ fetch (c + (L : Int) - 1) = .ok []))
      ∧ (browseLoop fetch fuel c).1
          = ((browseLoop fetch fuel c).2.map (fetchContents fetch)).flatten := by
  intro fuel
  induction fuel with
  | zero =>
    intro c
    exact ⟨0, le_refl 0, by simp [browseLoop], Or.inl rfl, by simp [browseLoop]⟩
  | succ fuel ih =>
    intro c
    obtain ⟨L, hle, htr, hterm, hrec⟩ := ih (c + 1)
    match hfc : fetch c with
    | .err =>
      refine ⟨L + 1, by omega, ?_, ?_, ?_⟩
      · simp only [browseLoop, hfc, htr, range_map_shift]
      · rcases hterm with h | ⟨hpos, hok⟩
        · exact Or.inl (by omega)
        · refine Or.inr ⟨by omega, ?_⟩
          have harith : c + ((L + 1 : Nat) : Int) - 1 = c + 1 + (L : Int) - 1 := by
            push_cast; ring
          rwa [harith]
      · simp [browseLoop, hfc, hrec, fetchContents]
    | .ok arts =>
      by_cases hae : arts.isEmpty
      · have harts : arts = [] := List.isEmpty_iff.1 hae
        refine ⟨1, by omega, ?_, ?_, ?_⟩
        · simp [browseLoop, hfc, hae, List.range_succ]
        · refine Or.inr ⟨Nat.one_pos, ?_⟩
          have harith : c + ((1 : Nat) : Int) - 1 = c := by push_cast; ring
          rw [harith, hfc, harts]
        · simp [browseLoop, hfc, hae, fetchContents, harts]
      · refine ⟨L + 1, by omega, ?_, ?_, ?_⟩
        · simp only [browseLoop, hfc, hae, Bool.false_eq_true, if_false, htr,
            range_map_shift]
        · rcases hterm with h | ⟨hpos, hok⟩
          · exact Or.inl (by omega)
          · refine Or.inr ⟨by omega, ?_⟩
            have harith : c + ((L + 1 : Nat) : Int) - 1 = c + 1 + (L : Int) - 1 := by
              push_cast; ring
            rwa [harith]
        · simp [browseLoop, hfc, hae, hrec, fetchContents]

/-- Claim C6: during aggregation the attempted pages are always the
consecutive block starting at the requested page (a failed page advances
the traversal by exactly one and is never retried, so the trace has no
duplicates); traversal ends only by exhausting the page budget or by an
empty page — never because of a failure; and the aggregation surfaces no
failure: its result is exactly the concatenated contents of the
successful fetches among the attempted pages. -/
theorem page_failure_policy (fetch : Int → FetchResult (List Article))
    (p m : Int) :
    ∃ L : Nat,
      (browse_latest_articles fetch p m).2
        = (List.range L).map (fun (k : Nat) => p + (k : Int))
      ∧ (browse_latest_articles fetch p m).2.Nodup
      ∧ (L = m.toNat ∨ (0 < L ∧ fetch (p + (L : Int) - 1) = .ok []))
      ∧ (browse_latest_articles fetch p m).1
          = simplify_articles
              (((browse_latest_articles fetch p m).2.map
                (fetchContents fetch)).flatten) := by
  obtain ⟨L, _, htr, hterm, hrec⟩ := browseLoop_trace fetch m.toNat p
  have htr' : (browse_latest_articles fetch p m).2
      = (List.range L).map (fun (k : Nat) => p + (k : Int)) := htr
  refine ⟨L, htr', ?_, hterm, ?_⟩
  · rw [htr']
    refine List.Nodup.map ?_ (List.nodup_range L)
    intro a b hab
    have hab' : p + (a : Int) = p + (b : Int) := hab
    have : ((a : Int)) = b := by omega
    exact_mod_cast this
  · show simplify_articles (browseLoop fetch m.toNat p).1 = _
    rw [hrec, htr, htr']

/-- Whether `needle` occurs at the start of `hay` (character lists). -/
def charsStartWith : List Char → List Char → Bool
  | _, [] => true
  | [], _ :: _ => false
  | a :: as, b :: bs => a = b && charsStartWith as bs

/-- Whether `needle` occurs contiguously anywhere in `hay`. -/
def charsContain (hay needle : List Char) : Bool :=
  match hay with
  | [] => charsStartWith [] needle
  | _ :: rest => charsStartWith hay needle || charsContain rest needle

/-- CPython `needle in hay` on strings: contiguous substring test. -/
def strHas (hay needle : String) : Bool :=
  charsContain hay.toList needle.toList

/-- The per-record predicate of `search_articles` (server.py:760): the
lowercased query occurs in the lowercased title, description, any tag of
a list-shaped tag collection, the owning user's username, or the markdown
body; absent keys default to the empty string, a non-list tag collection
and an absent user dict fail their `isinstance` guards. -/
def matchesQuery (query : String) (a : Article) : Bool :=
  let ql := pyLower query
  strHas (pyLower (a.title.getD "")) ql
  || strHas (pyLower (a.description.getD "")) ql
  || (match a.tag_list with
      | .listVal l => l.any fun t => strHas (pyLower t) ql
      | _ => false)
  || (match a.user with
      | some u => strHas (pyLower u) ql
      | none => false)
  || strHas (pyLower (a.body_markdown.getD "")) ql

/-- The calls a `search_articles` run makes: page numbers fetched from
the listing endpoint, then the tag-filter and username-filter fallback
arguments, each in order of attempt. -/
structure SearchCalls where
  pageCalls : List Int
  tagCalls : List String
  userCalls : List String
deriving DecidableEq

/-- The paging phase of `search_articles` (server.py:750): fetch a page;
on failure log-and-skip to the next page; on an empty page stop; otherwise
keep the page's matches and stop as soon as the accumulated match set is
non-empty.  Returns the matches and the trace of fetched page numbers. -/
def searchLoop (fetch : Int → FetchResult (List Article)) (query : String) :
    Nat → Int → List Article × List Int
  | 0, _ => ([], [])
  | fuel + 1, current =>
    match fetch current with
    | .err =>
      let r := searchLoop fetch query fuel (current + 1)
      (r.1, current :: r.2)
    | .ok arts =>
      if arts.isEmpty then ([], [current])
      else
        let pm := arts.filter (matchesQuery query)
        if pm.isEmpty then
          let r := searchLoop fetch query fuel (current + 1)
          (r.1, current :: r.2)
        else (pm, [current])

/-- Model of `search_articles` (server.py:724): page scan, then — only when it
produced nothing — a tag-filter fallback with the lowercased query
followed, when the result is still empty and the query holds no space
character, by a username-filter fallback; fallback failures contribute
nothing.  The matches are shaped by `simplify_articles`. -/
def search_articles (fetch : Int → FetchResult (List Article))
    (tagFetch userFetch : String → FetchResult (List Article))
    (query : String) (page max_pages : Int) :
    List SimpleArticle × SearchCalls :=
  let r := searchLoop fetch query max_pages.toNat page
  if r.1.isEmpty then
    let tagRes := match tagFetch (pyLower query) with
      | .ok l => l
      | .err => []
    let m1 := r.1 ++ tagRes
    if m1.isEmpty && !(query.toList.contains ' ') then
      let userRes := match userFetch (pyLower query) with
        | .ok l => l
        | .err => []
      (simplify_articles (m1 ++ userRes),
       ⟨r.2, [pyLower query], [pyLower query]⟩)
    else
      (simplify_articles m1, ⟨r.2, [pyLower query], []⟩)
  else (simplify_articles r.1, ⟨r.2, [], []⟩)

/-- Counterexample to claim C3 as stated: the query `"a\tb"` contains
whitespace (a tab), yet after an empty page scan and an empty tag-filter
fallback the code still attempts the username-filter fallback, because
the source only tests for the space character (`" " not in query`). -/
theorem search_fallback_whitespace_counterexample :
    ("a\tb".toList.any Char.isWhitespace = true)
    ∧ (search_articles (fun _ => .ok []) (fun _ => .ok []) (fun _ => .ok [])
        "a\tb" 1 30).2.userCalls = ["a\tb"] := by
  constructor
  · decide
  · decide

lemma searchLoop_first_match (fetch : Int → FetchResult (List Article))
    (query : String) :
    ∀ (j : Nat) (P : Nat → List Article) (fuel : Nat) (c : Int),
    (∀ i, i < j → fetch (c + i) = .ok (P i)
      ∧ (P i).filter (matchesQuery query) = [] ∧ P i ≠ []) →
    fetch (c + j) = .ok (P j) →
    (P j).filter (matchesQuery query) ≠ [] →
    j + 1 ≤ fuel →
    searchLoop fetch query fuel c
      = ((P j).filter (matchesQuery query),
         (List.range (j + 1)).map (fun (k : Nat) => c + (k : Int))) := by
  intro j
  induction j with
  | zero =>
    intro P fuel c _ hj hmatch hfuel
    obtain ⟨f, rfl⟩ : ∃ f, fuel = f + 1 := ⟨fuel - 1, by omega⟩
    have h0 : fetch c = .ok (P 0) := by simpa using hj
    have hne : (P 0).isEmpty = false := by
      rcases hP : P 0 with _ | _
      · rw [hP] at hmatch
        simp at hmatch
      · simp
    have hpm : ((P 0).filter (matchesQuery query)).isEmpty = false := by
      simpa [List.isEmpty_iff] using hmatch
    simp [searchLoop, h0, hne, hpm, List.range_succ]
  | succ j ih =>
    intro P fuel c hfull hj hmatch hfuel
    obtain ⟨f, rfl⟩ : ∃ f, fuel = f + 1 := ⟨fuel - 1, by omega⟩
    obtain ⟨h0, hf0, hne0⟩ := hfull 0 (Nat.succ_pos j)
    have h0' : fetch c = .ok (P 0) := by simpa using h0
    have hne : (P 0).isEmpty = false := by
      simpa [List.isEmpty_iff] using hne0
    have hpm : ((P 0).filter (matchesQuery query)).isEmpty = true := by
      simp [hf0]
    have hrec := ih (fun i => P (i + 1)) f (c + 1)
      (fun i hi => by
        obtain ⟨ha, hb, hc'⟩ := hfull (i + 1) (by omega)
        refine ⟨?_, hb, hc'⟩
        have harith : c + ((i + 1 : Nat) : Int) = c + 1 + (i : Int) := by
          push_cast; ring
        rwa [harith] at ha)
      (by
        have harith : c + ((j + 1 : Nat) : Int) = c + 1 + (j : Int) := by
          push_cast; ring
        rwa [harith] at hj)
      hmatch
      (by omega)
    have htr : (List.range (j + 1 + 1)).map (fun (k : Nat) => c + (k : Int))
        = c :: (List.range (j + 1)).map (fun (k : Nat) => c + 1 + (k : Int)) :=
      range_map_shift c (j + 1)
    simp only [searchLoop, h0', hne, Bool.false_eq_true, if_false, hpm,
      if_true, hrec, htr]

/-- Claim C3 (amended): the keyword scan stops at the first page whose
match set is non-empty and returns only that page's matches, fetching no
further pages; when paging yields no matches a tag-filter fallback runs
with the lowercased query and then — only when the result is still empty
and the query contains no space character — a username-filter fallback,
with failures of both fallbacks silently ignored. -/
theorem search_early_exit_and_fallbacks
    (fetch : Int → FetchResult (List Article))
    (tagFetch userFetch : String → FetchResult (List Article))
    (query : String) (page max_pages : Int)
    (P : Nat → List Article) (j : Nat) :
    ((∀ i, i < j → fetch (page + i) = .ok (P i)
        ∧ (P i).filter (matchesQuery query) = [] ∧ P i ≠ []) →
      fetch (page + j) = .ok (P j) →
      (P j).filter (matchesQuery query) ≠ [] →
      (j : Int) + 1 ≤ max_pages →
      search_articles fetch tagFetch userFetch query page max_pages
        = (simplify_articles ((P j).filter (matchesQuery query)),
           ⟨(List.range (j + 1)).map (fun (k : Nat) => page + (k : Int)),
            [], []⟩))
    ∧ (fetch page = .ok [] → 1 ≤ max_pages →
        (query.toList.contains ' ' = true → tagFetch (pyLower query) = .err →
          search_articles fetch tagFetch userFetch query page max_pages
            = ([], ⟨[page], [pyLower query], []⟩))
        ∧ (query.toList.contains ' ' = false → tagFetch (pyLower query) = .err →
            userFetch (pyLower query) = .err →
            search_articles fetch tagFetch userFetch query page max_pages
              = ([], ⟨[page], [pyLower query], [pyLower query]⟩))
        ∧ (∀ l, tagFetch (pyLower query) = .ok l → l ≠ [] →
            search_articles fetch tagFetch userFetch query page max_pages
              = (simplify_articles l, ⟨[page], [pyLower query], []⟩))) := by
  constructor
  · intro hfull hj hmatch hm
    have hloop := searchLoop_first_match fetch query j P max_pages.toNat page
      hfull hj hmatch (by omega)
    have hpm : (((P j).filter (matchesQuery query))).isEmpty = false := by
      simpa [List.isEmpty_iff] using hmatch
    simp [search_articles, hloop, hpm]
  · intro hempty hm
    obtain ⟨f, hf⟩ : ∃ f, max_pages.toNat = f + 1 :=
      ⟨max_pages.toNat - 1, by omega⟩
    have hloop : searchLoop fetch query max_pages.toNat page = ([], [page]) := by
      rw [hf]
      simp [searchLoop, hempty]
    refine ⟨?_, ?_, ?_⟩
    · intro hsp htag
      have hsp' : ' ' ∈ query.data := by simpa using hsp
      simp [search_articles, hloop, htag, hsp', simplify_articles]
    · intro hsp htag huser
      have hsp' : ' ' ∉ query.data := by simpa using hsp
      simp [search_articles, hloop, htag, hsp', huser, simplify_articles]
    · intro l htag hl
      have hle : l.isEmpty = false := by simpa [List.isEmpty_iff] using hl
      simp [search_articles, hloop, htag, hle]

/-- A witness record that does not match the query `"foo"`. -/
def artNoMatchW : Article := { baseArticle with title := some "bar" }

/-- A witness record that matches the query `"foo"` by title. -/
def artMatchW : Article := { baseArticle with title := some "foo stuff" }

/-- Witness pages for C3: page 0 has a non-matching record, page 1 a
matching one. -/
def pagesW3 : Nat → List Article := fun i =>
  if i = 0 then [artNoMatchW] else [artMatchW]

/-- Witness page-fetch for C3. -/
def fetchW3 : Int → FetchResult (List Article) := fun c =>
  if c = 1 then .ok [artNoMatchW]
  else if c = 2 then .ok [artMatchW] else .ok []

/-- Witness for C3 (amended): with a non-matching first page and a
matching second page, the scan returns exactly the second page's matches
and fetches only pages 1 and 2 of the 30 allowed. -/
theorem search_early_exit_witness :
    search_articles fetchW3 (fun _ => .ok []) (fun _ => .ok []) "foo" 1 30
      = (simplify_articles ((pagesW3 1).filter (matchesQuery "foo")),
         ⟨(List.range 2).map (fun (k : Nat) => 1 + (k : Int)), [], []⟩) :=
  (search_early_exit_and_fallbacks fetchW3 (fun _ => .ok []) (fun _ => .ok [])
      "foo" 1 30 pagesW3 1).1
    (by decide) (by decide) (by decide) (by decide)

/-- Outcome of `get_article_by_title`. -/
inductive TitleLookupResult where
  | found (d : ArticleDetail) : TitleLookupResult
  | notFound : TitleLookupResult
  | fetchError : TitleLookupResult
deriving DecidableEq

/-- The exact-title test of `get_article_by_title`:
`article["title"] == title` on a simplified search result, where a `None`
title never equals a string. -/
def exactTitle (title : String) (s : SimpleArticle) : Bool :=
  match s.title with
  | some t => t == title
  | none => false

/-- The case-insensitive test of the owned-corpus fallback:
`article.get("title", "").lower() == title.lower()`. -/
def ciTitle (title : String) (a : Article) : Bool :=
  pyLower (a.title.getD "") == pyLower title

/-- Model of `get_article_by_title` (server.py:672): run the keyword search (page
1, up to 30 pages) and return the first result whose title equals the
query exactly; otherwise fetch the caller's complete owned listing
(`find_all_my_articles`, server.py:305) and return the first
case-insensitive title match; a failing owned fetch propagates as an
error, and no match at all reports not-found. -/
def get_article_by_title (fetch : Int → FetchResult (List Article))
    (tagFetch userFetch : String → FetchResult (List Article))
    (ownedFetch : FetchResult (List Article)) (title : String) :
    TitleLookupResult :=
  match (search_articles fetch tagFetch userFetch title 1 30).1.find?
      (exactTitle title) with
  | some a => .found (detailOfSimple a)
  | none =>
    match ownedFetch with
    | .err => .fetchError
    | .ok owned =>
      match owned.find? (ciTitle title) with
      | some b => .found (format_article_detail b)
      | none => .notFound

lemma exactTitle_eq_true (title : String) (s : SimpleArticle) :
    exactTitle title s = true ↔ s.title = some title := by
  cases h : s.title <;> simp [exactTitle, h]

/-- Claim C5: the title lookup returns an exact-title search result
whenever one exists — regardless of the owned corpus, so an exact search
match beats any case-insensitive owned match with a different id; only
when no search result has an exactly equal title does it scan the owned
corpus and return its first case-insensitive match; with neither it
reports not-found. -/
theorem title_lookup_precedence
    (fetch : Int → FetchResult (List Article))
    (tagFetch userFetch : String → FetchResult (List Article))
    (ownedFetch : FetchResult (List Article)) (title : String)
    (S : List SimpleArticle)
    (hS : (search_articles fetch tagFetch userFetch title 1 30).1 = S) :
    ((∃ a ∈ S, a.title = some title) →
      ∃ a' ∈ S, a'.title = some title
        ∧ get_article_by_title fetch tagFetch userFetch ownedFetch title
            = .found (detailOfSimple a'))
    ∧ ((∀ a ∈ S, a.title ≠ some title) →
        ∀ owned b, ownedFetch = .ok owned →
          owned.find? (ciTitle title) = some b →
          get_article_by_title fetch tagFetch userFetch ownedFetch title
            = .found (format_article_detail b))
    ∧ ((∀ a ∈ S, a.title ≠ some title) →
        ∀ owned, ownedFetch = .ok owned →
          (∀ b ∈ owned, ciTitle title b = false) →
          get_article_by_title fetch tagFetch userFetch ownedFetch title
            = .notFound) := by
  refine ⟨?_, ?_, ?_⟩
  · rintro ⟨a, haS, hat⟩
    have hsome : (S.find? (exactTitle title)).isSome := by
      rw [List.find?_isSome]
      exact ⟨a, haS, (exactTitle_eq_true title a).2 hat⟩
    obtain ⟨a', hfind⟩ := Option.isSome_iff_exists.1 hsome
    refine ⟨a', List.mem_of_find?_eq_some hfind,
      (exactTitle_eq_true title a').1 (List.find?_some hfind), ?_⟩
    simp [get_article_by_title, hS, hfind]
  · intro hno owned b hok hfind
    have hnone : S.find? (exactTitle title) = none := by
      rw [List.find?_eq_none]
      intro a haS
      simp [exactTitle_eq_true, hno a haS]
    simp [get_article_by_title, hS, hnone, hok, hfind]
  · intro hno owned hok hnomatch
    have hnone : S.find? (exactTitle title) = none := by
      rw [List.find?_eq_none]
      intro a haS
      simp [exactTitle_eq_true, hno a haS]
    have hnone2 : owned.find? (ciTitle title) = none := by
      rw [List.find?_eq_none]
      intro b hb
      simp [hnomatch b hb]
    simp [get_article_by_title, hS, hnone, hok, hnone2]

/-- Witness search hit for C5: exact title `"Foo"`, id 100. -/
def artExactW : Article :=
  { baseArticle with id := some 100, title := some "Foo" }

/-- Witness owned record for C5: case-insensitive title `"FOO"`, a
different id 200. -/
def artOwnedW : Article :=
  { baseArticle with id := some 200, title := some "FOO" }

/-- Witness page-fetch for C5: one page holding the exact match. -/
def fetchW5 : Int → FetchResult (List Article) := fun c =>
  if c = 1 then .ok [artExactW] else .ok []

/-- Witness for C5: with an exact search match (id 100) and a differing
case-insensitive owned match (id 200) both present, the exact search
match is returned. -/
theorem title_lookup_precedence_witness :
    get_article_by_title fetchW5 (fun _ => .ok []) (fun _ => .ok [])
        (.ok [artOwnedW]) "Foo"
      = .found (detailOfSimple (simplify_article artExactW)) := by
  obtain ⟨a', ha'S, hat, heq⟩ :=
    (title_lookup_precedence fetchW5 (fun _ => .ok []) (fun _ => .ok [])
        (.ok [artOwnedW]) "Foo" (simplify_articles [artExactW])
        (by decide)).1
      ⟨simplify_article artExactW, by decide, by decide⟩
  have ha' : a' = simplify_article artExactW := by
    simpa [simplify_articles] using ha'S
  exact ha' ▸ heq

/-- Python `str(article.get("id"))`: `str(None)` is `"None"`. -/
def pyStrId : Option Int → String
  | some n => toString n
  | none => "None"

/-- Outcome of the direct single-article call inside `get_article`. -/
inductive DirectResult where
  | ok (a : Article) : DirectResult
  | httpStatus (code : Nat) : DirectResult
deriving DecidableEq

/-- Outcome of `get_article`: a detail dict or one of its error dicts. -/
inductive GetArticleResult where
  | found (d : ArticleDetail) : GetArticleResult
  | httpError (code : Nat) : GetArticleResult
  | notFound : GetArticleResult
deriving DecidableEq

/-- The per-page scan of `get_article`'s fallback (server.py:659): a
published record ends the whole lookup with not-found — before the id of
that record is even compared — while an unpublished record whose
string-normalized id equals the requested id returns its detail. -/
def scanMine (aid : String) : List Article → Option GetArticleResult
  | [] => none
  | a :: rest =>
    if pubTruthy a.published then some .notFound
    else if pyStrId a.id == aid then some (.found (format_article_detail a))
    else scanMine aid rest

/-- The fallback page loop of `get_article` (server.py:654): pages 1..10
of the owned listing, scanning each page and stopping on an empty page or
when the scan settles the lookup. -/
def getArticlePages (fetch : Int → List Article) (aid : String) :
    Nat → Int → GetArticleResult
  | 0, _ => .notFound
  | fuel + 1, page =>
    match scanMine aid (fetch page) with
    | some r => r
    | none =>
      if (fetch page).isEmpty then .notFound
      else getArticlePages fetch aid fuel (page + 1)

/-- Model of `get_article` (server.py:636): try the direct endpoint first; any
non-404 HTTP failure is returned as an error without the fallback; a 404
starts the owned-listing scan over at most 10 pages. -/
def get_article (direct : DirectResult) (fetch : Int → List Article)
    (aid : String) : GetArticleResult :=
  match direct with
  | .ok a => .found (format_article_detail a)
  | .httpStatus code =>
    if code ≠ 404 then .httpError code
    else getArticlePages fetch aid 10 1

/-- An unpublished record with the given id. -/
def unpubArt (n : Int) : Article :=
  { baseArticle with id := some n, published := .val false }

/-- The owned corpus for the C2 counterexample: ten records, the seventh
of which matches the requested id `"7"` but is published. -/
def corpusC2 : List Article :=
  [unpubArt 1, unpubArt 2, unpubArt 3, unpubArt 4, unpubArt 5, unpubArt 6,
   { baseArticle with id := some 7, published := .val true },
   unpubArt 8, unpubArt 9, unpubArt 10]

/-- Owned-listing fetch for the C2 counterexample. -/
def fetchC2 : Int → List Article := fun p =>
  if p = 1 then corpusC2 else []

/-- Counterexample to claim C2 as stated: the direct endpoint 404s and
the owned listing holds a record whose string-normalized id equals the
requested `"7"` as item 7 of 10, yet the lookup reports not-found,
because that record is published and the fallback scan aborts with
not-found upon meeting any published record. -/
theorem id_lookup_fallback_counterexample :
    corpusC2.length = 10
    ∧ (corpusC2.get? 6).map (fun a => pyStrId a.id) = some "7"
    ∧ get_article (.httpStatus 404) fetchC2 "7" = .notFound := by
  refine ⟨by decide, by decide, by decide⟩

lemma scanMine_found (aid : String) (tgt : Article)
    (hpt : pubTruthy tgt.published = false)
    (hmt : pyStrId tgt.id = aid) :
    ∀ (pre post : List Article),
    (∀ a ∈ pre, pubTruthy a.published = false ∧ pyStrId a.id ≠ aid) →
    scanMine aid (pre ++ tgt :: post)
      = some (.found (format_article_detail tgt)) := by
  intro pre
  induction pre with
  | nil =>
    intro post _
    have hma : (pyStrId tgt.id == aid) = true := by simp [hmt]
    simp [scanMine, hpt, hma]
  | cons a rest ih =>
    intro post hpre
    obtain ⟨hpa, hia⟩ := hpre a (List.mem_cons_self a rest)
    have hma : (pyStrId a.id == aid) = false := by
      simpa using hia
    simp only [List.cons_append, scanMine, hpa, Bool.false_eq_true, if_false,
      hma]
    exact ih post fun b hb => hpre b (List.mem_cons_of_mem a hb)

lemma scanMine_none (aid : String) :
    ∀ (L : List Article),
    (∀ a ∈ L, pubTruthy a.published = false ∧ pyStrId a.id ≠ aid) →
    scanMine aid L = none := by
  intro L
  induction L with
  | nil => intro; rfl
  | cons a rest ih =>
    intro hall
    obtain ⟨hpa, hia⟩ := hall a (List.mem_cons_self a rest)
    have hma : (pyStrId a.id == aid) = false := by simpa using hia
    simp only [scanMine, hpa, Bool.false_eq_true, if_false, hma]
    exact ih fun b hb => hall b (List.mem_cons_of_mem a hb)

/-- Claim C2 (amended): after a direct-endpoint 404 the fallback scans
the owned listing and returns the detail of a record whose
string-normalized id matches, provided that record and every record
before it in scan order are unpublished (in particular item 7 of 10 in an
all-unpublished corpus); meeting a published record, or exhausting the
listing without a match, reports not-found; a non-404 direct failure is
returned as an HTTP error without triggering the fallback. -/
theorem id_lookup_fallback (fetch : Int → List Article)
    (L : List Article) (aid : String) (hL : fetch 1 = L) :
    (∀ pre tgt post, L = pre ++ tgt :: post →
      (∀ a ∈ pre, pubTruthy a.published = false ∧ pyStrId a.id ≠ aid) →
      pubTruthy tgt.published = false →
      pyStrId tgt.id = aid →
      get_article (.httpStatus 404) fetch aid
        = .found (format_article_detail tgt))
    ∧ (fetch 2 = [] →
        (∀ a ∈ L, pubTruthy a.published = false ∧ pyStrId a.id ≠ aid) →
        get_article (.httpStatus 404) fetch aid = .notFound)
    ∧ (∀ code, code ≠ 404 →
        get_article (.httpStatus code) fetch aid = .httpError code) := by
  refine ⟨?_, ?_, ?_⟩
  · intro pre tgt post hsplit hpre hpt hmt
    have hscan : scanMine aid L = some (.found (format_article_detail tgt)) := by
      rw [hsplit]
      exact scanMine_found aid tgt hpt hmt pre post hpre
    simp [get_article, getArticlePages, hL, hscan]
  · intro h2 hall
    have hscan : scanMine aid L = none := scanMine_none aid L hall
    by_cases hLe : L = []
    · rw [hLe] at hL
      simp [get_article, getArticlePages, hL, scanMine]
    · have hne : L.isEmpty = false := by simpa [List.isEmpty_iff] using hLe
      simp [get_article, getArticlePages, hL, hscan, hne, h2, scanMine]
  · intro code hcode
    simp [get_article, hcode]

/-- The owned corpus for the C2 witness: ten unpublished records, the
seventh of which matches the requested id `"7"`. -/
def corpusW2 : List Article :=
  [unpubArt 1, unpubArt 2, unpubArt 3, unpubArt 4, unpubArt 5, unpubArt 6,
   unpubArt 7, unpubArt 8, unpubArt 9, unpubArt 10]

/-- Owned-listing fetch for the C2 witness. -/
def fetchW2 : Int → List Article := fun p =>
  if p = 1 then corpusW2 else []

/-- Witness for C2 (amended): with an all-unpublished ten-record corpus
whose seventh record matches, the fallback returns its detail. -/
theorem id_lookup_fallback_witness :
    get_article (.httpStatus 404) fetchW2 "7"
      = .found (format_article_detail (unpubArt 7)) :=
  (id_lookup_fallback fetchW2 corpusW2 "7" (by decide)).1
    [unpubArt 1, unpubArt 2, unpubArt 3, unpubArt 4, unpubArt 5, unpubArt 6]
    (unpubArt 7)
    [unpubArt 8, unpubArt 9, unpubArt 10]
    (by decide) (by decide) (by decide) (by decide)

/-- Lexicographic (code-point) comparison of character lists, as CPython
compares strings. -/
def charsLt : List Char → List Char → Bool
  | [], [] => false
  | [], _ :: _ => true
  | _ :: _, [] => false
  | a :: as, b :: bs =>
    if a < b then true else if b < a then false else charsLt as bs

/-- CPython `x < y` on strings. -/
def pyStrLt (x y : String) : Bool :=
  charsLt x.toList y.toList

/-- The filter test of `list_my_scheduled_articles` (server.py:1032):
`article["published"] and article["published_at"] > now`.  `none` models a
raised exception: a missing publication flag raises `KeyError`, and a
truthy flag with a missing or null timestamp raises on the comparison;
short-circuiting means a falsy flag never reads the timestamp. -/
def scheduledPred (a : Article) (now : String) : Option Bool :=
  match a.published with
  | .missing => none
  | pf =>
    if pubTruthy pf then
      match a.published_at with
      | some ts => some (pyStrLt now ts)
      | none => none
    else some false

/-- The filtering comprehension of `list_my_scheduled_articles`: `none`
as soon as any record evaluated raises. -/
def filterScheduled : List Article → String → Option (List Article)
  | [], _ => some []
  | a :: rest, now =>
    match scheduledPred a now with
    | none => none
    | some b =>
      (filterScheduled rest now).map fun r => if b then a :: r else r

/-- Model of `list_my_scheduled_articles` (server.py:1004): a single fetch of the
owned listing at the requested page and page size, the scheduled filter,
then `simplify_articles`; the second component traces the
`(page, per_page)` arguments of every fetch performed. -/
def list_my_scheduled_articles
    (fetch : Int → Int → FetchResult (List Article))
    (page per_page : Int) (now : String) :
    Option (List SimpleArticle) × List (Int × Int) :=
  match fetch page per_page with
  | .err => (none, [(page, per_page)])
  | .ok arts =>
    ((filterScheduled arts now).map simplify_articles, [(page, per_page)])

/-- The scheduled flag recomputed by `rest_list_my_scheduled_articles`
(server.py:1395): `article.get("published", False) and
article.get("published_at", "") > now` over a simplified record, whose
`published_at` key is always present but may hold `None` (in which case
the comparison raises, modelled as `none`). -/
def rest_scheduled_flag (s : SimpleArticle) (now : String) : Option Bool :=
  if s.published then
    match s.published_at with
    | some ts => some (pyStrLt now ts)
    | none => none
  else some false

lemma filterScheduled_eq :
    ∀ (l : List Article) (now : String) (fl : List Article),
    filterScheduled l now = some fl →
    fl = l.filter fun a => scheduledPred a now == some true := by
  intro l
  induction l with
  | nil =>
    intro now fl h
    simp only [filterScheduled, Option.some_inj] at h
    simp [← h]
  | cons a rest ih =>
    intro now fl h
    simp only [filterScheduled] at h
    cases hsp : scheduledPred a now with
    | none => rw [hsp] at h; exact absurd h (by simp)
    | some b =>
      rw [hsp] at h
      obtain ⟨fr, hfr, hflb⟩ := Option.map_eq_some'.1 h
      have hrest := ih now fr hfr
      cases b with
      | true =>
        simp only [if_true] at hflb
        rw [← hflb, hrest]
        simp [hsp]
      | false =>
        simp only [Bool.false_eq_true, if_false] at hflb
        rw [← hflb, hrest]
        simp [hsp]

/-- A record published with a timestamp one second after the reference
instant `2025-06-01T12:00:00`. -/
def futureArtW4 : Article :=
  { baseArticle with
      published := .val true,
      published_at := some "2025-06-01T12:00:01" }

/-- A record published with a timestamp before the reference instant. -/
def pastArtW4 : Article :=
  { baseArticle with
      published := .val true,
      published_at := some "2025-06-01T11:59:59" }

/-- Claim C4: a record with a present timestamp is classified scheduled
iff its publication flag is truthy and the timestamp sorts
lexicographically after the current instant; the REST recomputation
yields `true` exactly for a true flag with a present, later-sorting
timestamp; membership in the scheduled listing's filter output is
equivalent to satisfying the classification; and the one-second-future /
past instances come out `true` / `false`. -/
theorem scheduled_classification :
    (∀ (a : Article) (now ts : String), a.published_at = some ts →
      (scheduledPred a now = some true
        ↔ (pubTruthy a.published = true ∧ pyStrLt now ts = true)))
    ∧ (∀ (s : SimpleArticle) (now : String),
        rest_scheduled_flag s now = some true
          ↔ (s.published = true
            ∧ ∃ ts, s.published_at = some ts ∧ pyStrLt now ts = true))
    ∧ (∀ (arts : List Article) (now : String) (fl : List Article),
        filterScheduled arts now = some fl →
        ∀ a, a ∈ fl ↔ (a ∈ arts ∧ scheduledPred a now = some true))
    ∧ scheduledPred futureArtW4 "2025-06-01T12:00:00" = some true
    ∧ scheduledPred pastArtW4 "2025-06-01T12:00:00" = some false := by
  refine ⟨?_, ?_, ?_, by decide, by decide⟩
  · intro a now ts hts
    cases hp : a.published with
    | missing => simp [scheduledPred, hp, pubTruthy]
    | null => simp [scheduledPred, hp, pubTruthy]
    | val b =>
      cases b <;> simp [scheduledPred, hp, pubTruthy, hts]
  · intro s now
    cases hpub : s.published with
    | false => simp [rest_scheduled_flag, hpub]
    | true =>
      cases hts : s.published_at with
      | none => simp [rest_scheduled_flag, hpub, hts]
      | some ts => simp [rest_scheduled_flag, hpub, hts]
  · intro arts now fl hfl a
    rw [filterScheduled_eq arts now fl hfl, List.mem_filter]
    simp

/-- Witness for C4: the one-second-future record is classified
scheduled. -/
theorem scheduled_classification_witness :
    scheduledPred futureArtW4 "2025-06-01T12:00:00" = some true :=
  (scheduled_classification.1 futureArtW4 "2025-06-01T12:00:00"
      "2025-06-01T12:00:01" (by decide)).2 ⟨by decide, by decide⟩

/-- Claim C10: `list_my_scheduled_articles` performs exactly one fetch —
of the requested page with the requested page size — and every record it
returns is the shaped form of a record of that single fetched page that
satisfies the scheduled classification. -/
theorem scheduled_single_page
    (fetch : Int → Int → FetchResult (List Article))
    (page per_page : Int) (now : String) :
    (list_my_scheduled_articles fetch page per_page now).2
      = [(page, per_page)]
    ∧ (∀ res,
        (list_my_scheduled_articles fetch page per_page now).1 = some res →
        ∀ s ∈ res, ∃ l raw, fetch page per_page = .ok l ∧ raw ∈ l
          ∧ scheduledPred raw now = some true
          ∧ s = simplify_article raw) := by
  constructor
  · cases h : fetch page per_page <;>
      simp [list_my_scheduled_articles, h]
  · intro res hres s hs
    cases h : fetch page per_page with
    | err => simp [list_my_scheduled_articles, h] at hres
    | ok l =>
      simp only [list_my_scheduled_articles, h, Option.map_eq_some'] at hres
      obtain ⟨fl, hfl, hsimp⟩ := hres
      rw [← hsimp] at hs
      obtain ⟨raw, hrawfl, hsim⟩ := List.mem_map.1 hs
      rw [filterScheduled_eq l now fl hfl] at hrawfl
      have hmem := List.mem_filter.1 hrawfl
      exact ⟨l, raw, rfl, hmem.1, by simpa using hmem.2, hsim.symm⟩

/-- Witness fetch for C10: one page holding a scheduled and a
non-scheduled record. -/
def fetchW10 : Int → Int → FetchResult (List Article) := fun _ _ =>
  .ok [futureArtW4, pastArtW4]

/-- Witness for C10: the single fetch is of the requested `(1, 30)` page,
and the scheduled record it returns comes from that page. -/
theorem scheduled_single_page_witness :
    (list_my_scheduled_articles fetchW10 1 30 "2025-06-01T12:00:00").2
      = [(1, 30)]
    ∧ ∃ l raw, fetchW10 1 30 = .ok l ∧ raw ∈ l
        ∧ scheduledPred raw "2025-06-01T12:00:00" = some true
        ∧ simplify_article futureArtW4 = simplify_article raw := by
  refine ⟨(scheduled_single_page fetchW10 1 30 "2025-06-01T12:00:00").1, ?_⟩
  exact (scheduled_single_page fetchW10 1 30 "2025-06-01T12:00:00").2
    (simplify_articles [futureArtW4]) (by decide)
    (simplify_article futureArtW4) (by decide)

/-- The characters `sanitize_tag` keeps: `a`-`z`, `0`-`9`, `_`. -/
def isTagChar (c : Char) : Bool :=
  ('a' ≤ c && c ≤ 'z') || ('0' ≤ c && c ≤ '9') || c = '_'

/-- Model of `sanitize_tag` (server.py:1054): lowercase, then drop every character
other than lowercase alphanumerics and underscore. -/
def sanitize_tag (t : String) : String :=
  String.mk ((pyLower t).toList.filter isTagChar)

/-- The characters the `safe_json_payload` cleaner keeps
(server.py:1043): `c >= ' ' or c in '\n\r\t'`. -/
def isJsonSafeChar (c : Char) : Bool :=
  ' ' ≤ c || c = '\n' || c = '\r' || c = '\t'

/-- The string cleaner inside `safe_json_payload` (server.py:1041). -/
def safe_json_clean (s : String) : String :=
  String.mk (s.toList.filter isJsonSafeChar)

/-- The `article` payload `create_article` sends (server.py:1077): the
`tags` key is absent (`none`) when no tag survives sanitization. -/
structure CreatePayload where
  title : String
  body_markdown : String
  published : Bool
  tags : Option (List String)
deriving DecidableEq

/-- The tag list `create_article` computes (server.py:1076): empty when
`tags` is falsy, else the non-empty sanitizations of the comma-separated,
stripped pieces, in order. -/
def create_tag_list (tags : String) : List String :=
  if tags = "" then []
  else ((pySplitComma tags).map fun t => sanitize_tag (pyStrip t)).filter
    fun t => t ≠ ""

/-- Model of `safe_json_payload` over a create payload. -/
def safe_json_payload_create (p : CreatePayload) : CreatePayload :=
  { title := safe_json_clean p.title
  , body_markdown := safe_json_clean p.body_markdown
  , published := p.published
  , tags := p.tags.map fun l => l.map safe_json_clean }

/-- The payload-construction part of `create_article` (server.py:1076). -/
def create_article_payload (title content tags : String)
    (published : Bool) : CreatePayload :=
  safe_json_payload_create
    { title := title, body_markdown := content, published := published
    , tags := if create_tag_list tags = [] then none
              else some (create_tag_list tags) }

/-- The `article` payload `update_article` sends (server.py:1119): every
key is optional. -/
structure UpdatePayload where
  title : Option String
  body_markdown : Option String
  tags : Option (List String)
  published : Option Bool
deriving DecidableEq

/-- The tag list `update_article` computes when its `tags` argument is
not `None` (server.py:1125). -/
def update_tag_list (tags : String) : List String :=
  ((pySplitComma tags).map fun t => sanitize_tag (pyStrip t)).filter
    fun t => t ≠ ""

/-- Model of `safe_json_payload` over an update payload. -/
def safe_json_payload_update (p : UpdatePayload) : UpdatePayload :=
  { title := p.title.map safe_json_clean
  , body_markdown := p.body_markdown.map safe_json_clean
  , tags := p.tags.map fun l => l.map safe_json_clean
  , published := p.published }

/-- The payload-construction part of `update_article` (server.py:1119):
the `tags` key appears only when the argument was supplied and some tag
survives sanitization. -/
def update_article_payload (title content tags : Option String)
    (published : Option Bool) : UpdatePayload :=
  safe_json_payload_update
    { title := title, body_markdown := content
    , tags := match tags with
        | none => none
        | some ts => if update_tag_list ts = [] then none
                     else some (update_tag_list ts)
    , published := published }

lemma isTagChar_jsonSafe (c : Char) :
    isTagChar c = true → isJsonSafeChar c = true := by
  intro h
  simp only [isTagChar, Bool.or_eq_true, Bool.and_eq_true, decide_eq_true_eq]
    at h
  have hs : (' ' : Char) ≤ c := by
    rcases h with (⟨h1, _⟩ | ⟨h1, _⟩) | h1
    · exact le_trans (show (' ' : Char) ≤ 'a' by decide) h1
    · exact le_trans (show (' ' : Char) ≤ '0' by decide) h1
    · subst h1
      decide
  simp only [isJsonSafeChar, Bool.or_eq_true, decide_eq_true_eq]
  tauto

lemma sanitize_tag_chars (t : String) :
    (sanitize_tag t).toList.all isTagChar = true := by
  rw [List.all_eq_true]
  intro c hc
  exact (List.mem_filter.1 hc).2

lemma safe_clean_sanitized (t : String) :
    safe_json_clean (sanitize_tag t) = sanitize_tag t := by
  show String.mk (((pyLower t).toList.filter isTagChar).filter isJsonSafeChar)
      = String.mk ((pyLower t).toList.filter isTagChar)
  refine congrArg String.mk (List.filter_eq_self.2 ?_)
  intro c hc
  exact isTagChar_jsonSafe c (List.mem_filter.1 hc).2

lemma create_tag_list_mem (tags : String) :
    ∀ t ∈ create_tag_list tags,
      t ≠ "" ∧ ∃ raw ∈ pySplitComma tags, t = sanitize_tag (pyStrip raw) := by
  intro t ht
  unfold create_tag_list at ht
  by_cases h0 : tags = ""
  · rw [h0] at ht
    simp at ht
  · rw [if_neg h0] at ht
    obtain ⟨hmem, hne⟩ := List.mem_filter.1 ht
    obtain ⟨raw, hraw, rfl⟩ := List.mem_map.1 hmem
    exact ⟨by simpa using hne, raw, hraw, rfl⟩

lemma update_tag_list_mem (tags : String) :
    ∀ t ∈ update_tag_list tags,
      t ≠ "" ∧ ∃ raw ∈ pySplitComma tags, t = sanitize_tag (pyStrip raw) := by
  intro t ht
  obtain ⟨hmem, hne⟩ := List.mem_filter.1 ht
  obtain ⟨raw, hraw, rfl⟩ := List.mem_map.1 hmem
  exact ⟨by simpa using hne, raw, hraw, rfl⟩

lemma map_clean_create_tag_list (tags : String) :
    (create_tag_list tags).map safe_json_clean = create_tag_list tags := by
  have h : (create_tag_list tags).map safe_json_clean
      = (create_tag_list tags).map id := by
    refine List.map_congr_left fun t ht => ?_
    obtain ⟨_, raw, _, rfl⟩ := create_tag_list_mem tags t ht
    exact safe_clean_sanitized (pyStrip raw)
  simpa using h

lemma map_clean_update_tag_list (tags : String) :
    (update_tag_list tags).map safe_json_clean = update_tag_list tags := by
  have h : (update_tag_list tags).map safe_json_clean
      = (update_tag_list tags).map id := by
    refine List.map_congr_left fun t ht => ?_
    obtain ⟨_, raw, _, rfl⟩ := update_tag_list_mem tags t ht
    exact safe_clean_sanitized (pyStrip raw)
  simpa using h

/-- Claim C9: in `create_article` and `update_article` every tag placed
in the outbound payload is a non-empty sanitization (lowercased, stripped
of everything but `a`-`z`, `0`-`9`, `_`) of one of the supplied
comma-separated pieces; tags sanitizing to the empty string are dropped;
and when every tag sanitizes away — or, for update, when no tags argument
was supplied — the payload carries no tags field. -/
theorem outbound_tag_sanitization (title content tags : String)
    (published : Bool) (ut uc : Option String) (up : Option Bool) :
    (∀ tl, (create_article_payload title content tags published).tags
        = some tl →
      tl = create_tag_list tags ∧ tl ≠ []
      ∧ ∀ t ∈ tl, t ≠ "" ∧ t.toList.all isTagChar = true
        ∧ ∃ raw ∈ pySplitComma tags, t = sanitize_tag (pyStrip raw))
    ∧ (create_tag_list tags = [] →
        (create_article_payload title content tags published).tags = none)
    ∧ (∀ tl, (update_article_payload ut uc (some tags) up).tags = some tl →
        tl = update_tag_list tags ∧ tl ≠ []
        ∧ ∀ t ∈ tl, t ≠ "" ∧ t.toList.all isTagChar = true
          ∧ ∃ raw ∈ pySplitComma tags, t = sanitize_tag (pyStrip raw))
    ∧ (update_tag_list tags = [] →
        (update_article_payload ut uc (some tags) up).tags = none)
    ∧ (update_article_payload ut uc none up).tags = none := by
  refine ⟨?_, ?_, ?_, ?_, ?_⟩
  · intro tl htl
    by_cases hc : create_tag_list tags = []
    · simp [create_article_payload, safe_json_payload_create, hc] at htl
    · simp only [create_article_payload, safe_json_payload_create, hc,
        if_false, Option.map_some', Option.some_inj,
        map_clean_create_tag_list] at htl
      refine ⟨htl.symm, by rw [← htl]; exact hc, ?_⟩
      intro t ht
      rw [← htl] at ht
      obtain ⟨hne, raw, hraw, hform⟩ := create_tag_list_mem tags t ht
      exact ⟨hne, hform ▸ sanitize_tag_chars (pyStrip raw), raw, hraw, hform⟩
  · intro hc
    simp [create_article_payload, safe_json_payload_create, hc]
  · intro tl htl
    by_cases hc : update_tag_list tags = []
    · simp [update_article_payload, safe_json_payload_update, hc] at htl
    · simp only [update_article_payload, safe_json_payload_update, hc,
        if_false, Option.map_some', Option.some_inj,
        map_clean_update_tag_list] at htl
      refine ⟨htl.symm, by rw [← htl]; exact hc, ?_⟩
      intro t ht
      rw [← htl] at ht
      obtain ⟨hne, raw, hraw, hform⟩ := update_tag_list_mem tags t ht
      exact ⟨hne, hform ▸ sanitize_tag_chars (pyStrip raw), raw, hraw, hform⟩
  · intro hc
    simp [update_article_payload, safe_json_payload_update, hc]
  · simp [update_article_payload, safe_json_payload_update]

/-- Witness for C9: the tag string `"Py!thon, ,C-x"` sanitizes to
`["python", "cx"]` (pieces lowered and stripped of other characters, the
blank piece dropped), and that list appears in the create payload. -/
theorem outbound_tag_sanitization_witness :
    create_tag_list "Py!thon, ,C-x" ≠ []
    ∧ create_tag_list "Py!thon, ,C-x" = ["python", "cx"]
    ∧ (create_article_payload "T" "B" "Py!thon, ,C-x" false).tags
        = some ["python", "cx"] := by
  have h := (outbound_tag_sanitization "T" "B" "Py!thon, ,C-x" false
      none none none).1 ["python", "cx"] (by decide)
  refine ⟨?_, h.1.symm, by decide⟩
  rw [← h.1]
  exact h.2.1
